import Mathlib

/-!
Verification of the `skill-date-time` repository (`__init__.py`, class `TimeSkill`).

Two parts of the source carry the algorithmic content that the claims are about:

* `TimeSkill.get_timezone` (the location-resolution engine): an ordered cascade of
  strategies — known-place (astral) lookup, `pytz.timezone` exact lookup, alias-table
  lookup from `translate_namedvalues("timezone.value")`, and a fuzzy scan over
  `pytz.all_timezones` with a confirmation prompt for mid-confidence matches.
* `TimeSkill.update_display` (the display-arbitration scheduler tick), together with
  the exclusive-window bracket in `handle_query_time`.

External collaborators are modelled as parameters:

* `known : String → Option String` models the astral city lookup composed with
  `pytz.timezone` (source line 87), with its `try/except: pass` wrapper; `none` means
  the strategy fell through.
* the timezone catalog (`pytz.all_timezones`) is a `List String` of identifiers; a
  timezone record is identified with its canonical identifier string.
* `pytz.timezone` is modelled by `pytz_timezone`: a case-insensitive lookup of the
  zone name among the catalog identifiers (pytz's `_case_insensitive_zone_lookup`);
  `none` models `UnknownTimeZoneError`.
* `fm : String → String → ℚ` models `lingua_franca.parse.fuzzy_match`, a similarity
  score in `[0,1]`; it stays abstract since the claims quantify over scores.
* `ask : String → String` models `self.ask_yesno("did.you.mean.timezone", ...)` as a
  map from the spoken zone phrase to the user's reply; the reply is affirmative
  exactly when it equals `"yes"`.

Python scalar behaviour is embedded explicitly: `str.lower`, `str.replace`,
`str.split`, `str.strip` and the camel-case regex are given as executable functions
on character lists; an uncaught Python exception is `Except.error ()`.
-/

namespace TimeSkillVerif

/-- Python `str.lower()` restricted to ASCII letters, which is all the source's
timezone identifiers and alias keys contain. -/
def lowerStr (s : String) : String := String.mk (s.data.map Char.toLower)

/-- Python `str.replace(a, b)` for single-character patterns, as used by
`name.replace("_", " ")` in the source. -/
def replaceChar (a b : Char) (s : String) : String :=
  String.mk (s.data.map (fun c => if c = a then b else c))

/-- Accumulator pass of `splitChar`: splits a character list at every occurrence of
`sep`, like Python `str.split(sep)` with a one-character separator. -/
def splitCharAux (sep : Char) : List Char → List Char → List (List Char)
  | [], acc => [acc.reverse]
  | c :: cs, acc =>
    if c = sep then acc.reverse :: splitCharAux sep cs []
    else splitCharAux sep cs (c :: acc)

/-- Python `str.split(sep)` for a one-character separator (`"/"` in the source).
Like Python, it returns `[""]` on the empty string and keeps empty fields. -/
def splitChar (sep : Char) (s : String) : List String :=
  (splitCharAux sep s.data []).map String.mk

/-- Whitespace characters removed by Python `str.strip()` (the ones that can occur
in a translation `.value` file). -/
def isStripChar (c : Char) : Bool :=
  c = ' ' || c = '\t' || c = '\n' || c = '\r'

/-- Drops leading whitespace from a character list. -/
def dropLeadingSpaces : List Char → List Char
  | [] => []
  | c :: cs => if isStripChar c then dropLeadingSpaces cs else c :: cs

/-- Python `str.strip()`: removes leading and trailing whitespace. -/
def pyStrip (s : String) : String :=
  String.mk (dropLeadingSpaces (dropLeadingSpaces s.data.reverse).reverse)

/-- Character-level pass of `camelSplit`: inserts a space between a lowercase ASCII
letter immediately followed by an uppercase ASCII letter. -/
def camelSplitAux : List Char → List Char
  | [] => []
  | [c] => [c]
  | c1 :: c2 :: rest =>
    if c1.isLower && c2.isUpper then c1 :: ' ' :: camelSplitAux (c2 :: rest)
    else c1 :: camelSplitAux (c2 :: rest)

/-- The source's `re.sub(r"([a-z])([A-Z])", r"\g<1> \g<2>", s)` (line 131): splits
internal letter-case boundaries, e.g. `"EasterIsland"` to `"Easter Island"`.
Because the pattern is two letters and a fresh match cannot start at the consumed
uppercase letter, the regex substitution coincides with this character-pair pass. -/
def camelSplit (s : String) : String := String.mk (camelSplitAux s.data)

/-- Python `sep.join(parts)` (used as `" ".join(say)` at source line 135). -/
def joinWith (sep : String) : List String → String
  | [] => ""
  | [s] => s
  | s :: rest => s ++ sep ++ joinWith sep rest

/-- The source's acceptance threshold `0.8` (lines 126, 129). Written in reduced
constructor form so that comparisons against it compute; `highThreshold_eq` states
the value. -/
def highThreshold : ℚ := ⟨4, 5, by decide, by decide⟩

/-- The source's confirmation threshold `0.3` (line 129), in reduced constructor
form; `lowThreshold_eq` states the value. -/
def lowThreshold : ℚ := ⟨3, 10, by decide, by decide⟩

/-- Value stored in the alias table returned by `translate_namedvalues`:
either a Python string or some non-string object (a malformed entry). -/
inductive Val where
  | vstr : String → Val
  | vother : Val
deriving DecidableEq

/-- Model of `pytz.timezone(zone)`: case-insensitive lookup of `zone` among the
catalog identifiers (pytz's `_case_insensitive_zone_lookup`; pytz does not trim
its argument). `some id` is the record with canonical identifier `id`; `none`
models `pytz.UnknownTimeZoneError`. -/
def pytz_timezone (catalog : List String) (zone : String) : Option String :=
  catalog.find? (fun id => lowerStr id = lowerStr zone)

/-- The alias-table loop of `get_timezone` (source lines 100-104):

    for timezone in timezones:
        if locale.lower() == timezone.lower():
            return pytz.timezone(timezones[timezone].strip())

`Except.ok none` means the loop fell through; `Except.error ()` is an uncaught
exception — an `AttributeError` from `.strip()` on a non-string value, or an
`UnknownTimeZoneError` from `pytz.timezone` on a value naming no catalog zone
(the loop body runs outside any `try`, and the source comments that it
"assumes translation is correct"). -/
def aliasResolve (catalog : List String) (aliases : List (String × Val))
    (locale : String) : Except Unit (Option String) :=
  match aliases with
  | [] => Except.ok none
  | (k, v) :: rest =>
    if lowerStr locale = lowerStr k then
      match v with
      | Val.vstr s =>
        match pytz_timezone catalog (pyStrip s) with
        | some r => Except.ok (some r)
        | none => Except.error ()
      | Val.vother => Except.error ()
    else aliasResolve catalog rest locale

/-- First alias entry whose key case-insensitively equals the query — the entry the
source's alias loop acts on. -/
def firstAlias (aliases : List (String × Val)) (locale : String) :
    Option (String × Val) :=
  aliases.find? (fun kv => lowerStr locale = lowerStr kv.1)

/-- The source's `name.lower().replace("_", " ").split("/")` (line 116). -/
def normalizeName (name : String) : List String :=
  splitChar '/' (replaceChar '_' ' ' (lowerStr name))

/-- Fuzzy score of one catalog record against the lowered query, from source lines
116-123: with one path segment, the score of that segment; with two or more,
the maximum of the score of `normalized[1]` (the second segment), the
forward compound `normalized[-2] + " " + normalized[-1]`, and the reverse
compound `normalized[-1] + " " + normalized[-2]`. -/
def score_of_record (fm : String → String → ℚ) (target name : String) : ℚ :=
  let normalized := normalizeName name
  if normalized.length = 1 then
    fm (normalized.getD 0 "") target
  else
    let pct := fm (normalized.getD 1 "") target
    let pct2 :=
      fm (normalized.getD (normalized.length - 2) "" ++ " " ++
          normalized.getD (normalized.length - 1) "") target
    let pct3 :=
      fm (normalized.getD (normalized.length - 1) "" ++ " " ++
          normalized.getD (normalized.length - 2) "") target
    max pct (max pct2 pct3)

/-- One step of the best-candidate scan (source lines 124-125):

    if not best or pct >= best[0]:
        best = (pct, name)
-/
def bestStep (score : String → ℚ) (best : Option (ℚ × String)) (name : String) :
    Option (ℚ × String) :=
  let pct := score name
  match best with
  | none => some (pct, name)
  | some b => if pct ≥ b.1 then some (pct, name) else some b

/-- The fuzzy scan of source lines 114-125: fold `bestStep` over the catalog,
keeping the single best `(score, name)` pair, ties replaced (`>=`). -/
def bestScan (score : String → ℚ) (catalog : List String) : Option (ℚ × String) :=
  catalog.foldl (bestStep score) none

/-- The speakable disambiguation phrase of source lines 131-135: camel-case split,
underscores to spaces, split on `"/"`, segments reversed and joined with spaces
(e.g. `"America/North_Dakota/Center"` to `"Center North Dakota America"`). -/
def speakable (name : String) : String :=
  joinWith " " (splitChar '/' (replaceChar '_' ' ' (camelSplit name))).reverse

/-- Shallow embedding of `TimeSkill.get_timezone` (source lines 84-139).
Returns the resolution outcome together with the list of phrases passed to the
confirmation collaborator (`ask_yesno`), in order. `Except.ok none` is the final
`return None` (NotFound); `Except.error ()` is an uncaught exception. In the two
accepting fuzzy branches the source returns `pytz.timezone(best[1])` with
`best[1]` drawn from the catalog, i.e. the record named `best[1]` itself. -/
def get_timezone (known : String → Option String) (catalog : List String)
    (aliases : List (String × Val)) (fm : String → String → ℚ)
    (ask : String → String) (locale : String) :
    Except Unit (Option String) × List String :=
  match known locale with
  | some r => (Except.ok (some r), [])
  | none =>
    match pytz_timezone catalog locale with
    | some r => (Except.ok (some r), [])
    | none =>
      match aliasResolve catalog aliases locale with
      | Except.error e => (Except.error e, [])
      | Except.ok (some r) => (Except.ok (some r), [])
      | Except.ok none =>
        let target := lowerStr locale
        match bestScan (fun name => score_of_record fm target name) catalog with
        | none => (Except.ok none, [])
        | some best =>
          if best.1 > highThreshold then (Except.ok (some best.2), [])
          else if best.1 > lowThreshold then
            let say := speakable best.2
            if ask say = "yes" then (Except.ok (some best.2), [say])
            else (Except.ok none, [say])
          else (Except.ok none, [])

/-- Modelled from the spec (§4.1, strategy 4): the per-record fuzzy score with the
segment-only factor taken against the **last** path segment, as the spec words it:
"segment-only score: similarity between the last path segment (normalized:
underscores → spaces) and query", plus the forward and reverse compounds of the
last two segments, the record's score being the max of the applicable scores. -/
def score_of_record_spec (fm : String → String → ℚ) (target name : String) : ℚ :=
  match normalizeName name with
  | [] => 0
  | [only] => fm only target
  | s0 :: s1 :: rest =>
    let lastSeg := ((s0 :: s1 :: rest).getLast?).getD ""
    let prevSeg := ((s0 :: s1 :: rest).dropLast.getLast?).getD ""
    max (fm lastSeg target)
      (max (fm (prevSeg ++ " " ++ lastSeg) target)
           (fm (lastSeg ++ " " ++ prevSeg) target))

/-- Amendment of `score_of_record_spec`: identical except that the segment-only
factor is taken against the **second** path segment (index 1), which is what the
source's `normalized[1]` selects; for two-segment identifiers the second segment
is the last one, so the two spec readings agree there. -/
def score_of_record_second (fm : String → String → ℚ) (target name : String) : ℚ :=
  match normalizeName name with
  | [] => 0
  | [only] => fm only target
  | s0 :: s1 :: rest =>
    let lastSeg := ((s0 :: s1 :: rest).getLast?).getD ""
    let prevSeg := ((s0 :: s1 :: rest).dropLast.getLast?).getD ""
    max (fm s1 target)
      (max (fm (prevSeg ++ " " ++ lastSeg) target)
           (fm (lastSeg ++ " " ++ prevSeg) target))

/-! ## Display-arbitration scheduler

`TimeSkill.update_display` (source lines 262-292), its callees `display` /
`display_gui` (191-195, 249-255) and `_is_display_idle` (257-260), and the
exclusive-window bracket of `handle_query_time` (331-339). Side effects on the
enclosure and GUI are reified as a list of `Action`s per call; the mutable
attributes of the skill object live in `SkillState`. -/

/-- Mutable attributes of the `TimeSkill` object that the scheduler touches:
`answering_query` (the exclusivity flag), `displayed_time` (the last shown text,
`None` initially), and the three GUI model slots written by `update_display` and
`display_gui` (`time_string`, `date_string`, `ampm_string`; `none` = never
assigned). -/
structure SkillState where
  answering_query : Bool
  displayed_time : Option String
  gui_time : Option String
  gui_date : Option String
  gui_ampm : Option String
deriving DecidableEq

/-- Readings of the external collaborators during one `update_display` call:
`show_time` is `self.settings.get("show_time", False)`, `active_owner` is
`self.enclosure.display_manager.get_active()` (`""` = display free, which is what
`_is_display_idle` tests), `current_time` is the value `get_display_current_time()`
returns during this call (`none` models Python `None` when the timezone lookup
fails), and `current_date` is `get_display_date()`. -/
structure Env where
  show_time : Bool
  active_owner : String
  current_time : Option String
  current_date : String
deriving DecidableEq

/-- Observable side effects on the shared display: `draw` is a `display(...)` call
that actually renders (Mark-1 mouth and/or `time.qml` GUI page), `erase` is
`enclosure.mouth_reset()`, `removeActive` is `display_manager.remove_active()`,
and `mouthEvents b` is `activate_mouth_events()` / `deactivate_mouth_events()`. -/
inductive Action where
  | draw : String → Action
  | erase : Action
  | removeActive : Action
  | mouthEvents : Bool → Action
deriving DecidableEq

/-- Predicate picking out draw actions. -/
def isDraw : Action → Bool
  | Action.draw _ => true
  | _ => false

/-- Predicate picking out erase actions. -/
def isErase : Action → Bool
  | Action.erase => true
  | _ => false

/-- Python truthiness of `self.displayed_time` (`if self.displayed_time:`,
source line 285): false for `None` and for the empty string. -/
def truthyOpt : Option String → Bool
  | none => false
  | some s => !(s = "")

/-- Embedding of `TimeSkill.display` (source lines 191-195) together with
`display_gui` (249-255): a no-op when `display_time` is falsy (`None` or `""`),
otherwise one rendering action plus the GUI writes of `display_gui`
(`time_string`, `ampm_string`, `date_string`). -/
def display_fn (env : Env) (display_time : Option String) (st : SkillState) :
    SkillState × List Action :=
  match display_time with
  | none => (st, [])
  | some t =>
    if t = "" then (st, [])
    else
      ({ st with gui_time := some t, gui_date := some env.current_date,
                 gui_ampm := some "" },
       [Action.draw t])

/-- Shallow embedding of `TimeSkill.update_display` (source lines 262-292).
Returns the updated state and the actions issued, in order. -/
def update_display (env : Env) (force : Bool) (st : SkillState) :
    SkillState × List Action :=
  if st.answering_query then (st, [])
  else
    let st1 := { st with gui_time := env.current_time,
                         gui_date := some env.current_date,
                         gui_ampm := some "" }
    if env.show_time then
      if force || env.active_owner = "" then
        let current_time := env.current_time
        if st1.displayed_time ≠ current_time then
          let st2 := { st1 with displayed_time := current_time }
          let drawn := display_fn env current_time st2
          (drawn.1, drawn.2 ++ [Action.removeActive])
        else (st1, [])
      else ({ st1 with displayed_time := none }, [])
    else
      if truthyOpt st1.displayed_time then
        if env.active_owner = "" then
          ({ st1 with displayed_time := none },
           [Action.erase, Action.removeActive])
        else ({ st1 with displayed_time := none }, [])
      else (st1, [])

/-- Runs a sequence of `update_display` ticks, each with its environment reading
and `force` argument, concatenating the issued actions. -/
def runTicks (st : SkillState) : List (Env × Bool) → SkillState × List Action
  | [] => (st, [])
  | (env, force) :: rest =>
    let r1 := update_display env force st
    let r2 := runTicks r1.1 rest
    (r2.1, r1.2 ++ r2.2)

/-- Start of the exclusive display window in `handle_query_time` (source lines
331-332): set `answering_query` and deactivate mouth events. -/
def beginExclusive (st : SkillState) : SkillState × List Action :=
  ({ st with answering_query := true }, [Action.mouthEvents false])

/-- End of the exclusive display window in `handle_query_time` (source lines
336-339): `mouth_reset()`, `activate_mouth_events()`, `answering_query = False`,
`displayed_time = None`. -/
def endExclusive (st : SkillState) : SkillState × List Action :=
  ({ st with answering_query := false, displayed_time := none },
   [Action.erase, Action.mouthEvents true])

/-! ## Concrete collaborator instances used by witnesses and counterexamples -/

/-- Known-place (astral) lookup that recognises no place: every astral access
raises and is swallowed by the source's `except: pass`. -/
def knownNone : String → Option String := fun _ => none

/-- The rational one half, in reduced constructor form so comparisons compute. -/
def half : ℚ := ⟨1, 2, by decide, by decide⟩

/-- Fuzzy matcher returning `1` on equal strings and `0` otherwise — the extreme
instance of the spec's contract ("`1.0` for identical normalized strings and
near-`0` for disjoint strings"). -/
def fmEq : String → String → ℚ := fun a b => if a = b then 1 else 0

/-- Fuzzy matcher returning the constant moderate score `1/2`. -/
def fmHalf : String → String → ℚ := fun _ _ => half

/-- Confirmation collaborator that always answers affirmatively. -/
def askYes : String → String := fun _ => "yes"

/-- Confirmation collaborator that always answers negatively. -/
def askNo : String → String := fun _ => "no"

/-- Scheduler state with the exclusivity flag held and a stale shown text. -/
def stHold : SkillState :=
  { answering_query := true, displayed_time := some "11:59",
    gui_time := none, gui_date := none, gui_ampm := none }

/-- Scheduler state with the display idle and nothing shown yet. -/
def stFresh : SkillState :=
  { answering_query := false, displayed_time := none,
    gui_time := none, gui_date := none, gui_ampm := none }

/-- Tick environment: idle display enabled, display free, a concrete time. -/
def envFree : Env :=
  { show_time := true, active_owner := "", current_time := some "12:00",
    current_date := "10/12/2026" }

/-- Tick environment: idle display enabled but a foreign skill owns the display. -/
def envBusy : Env :=
  { show_time := true, active_owner := "OtherSkill", current_time := some "12:00",
    current_date := "10/12/2026" }

/-! ## Helper lemmas -/

theorem highThreshold_eq : highThreshold = 8/10 := by
  rw [highThreshold, Rat.mk'_eq_divInt, Rat.divInt_eq_div]; norm_num

theorem lowThreshold_eq : lowThreshold = 3/10 := by
  rw [lowThreshold, Rat.mk'_eq_divInt, Rat.divInt_eq_div]; norm_num

theorem half_eq : half = 1/2 := by
  rw [half, Rat.mk'_eq_divInt, Rat.divInt_eq_div]; norm_num

theorem getD_len_sub_one {α : Type} (d : α) :
    ∀ (l : List α), l ≠ [] → l.getD (l.length - 1) d = l.getLast?.getD d
  | [], h => absurd rfl h
  | [a], _ => by simp [List.getD]
  | a :: b :: t, _ => by
    have ih := getD_len_sub_one d (b :: t) (by simp)
    have h1 : (a :: b :: t).length - 1 = ((b :: t).length - 1) + 1 := by simp
    rw [List.getLast?_cons_cons, h1, List.getD_cons_succ, ih]

theorem getD_len_sub_two {α : Type} (d : α) :
    ∀ (l : List α), 2 ≤ l.length →
      l.getD (l.length - 2) d = l.dropLast.getLast?.getD d
  | [], h => by simp at h
  | [a], h => by simp at h
  | [a, b], _ => by simp [List.getD]
  | a :: b :: c :: t, _ => by
    have ih := getD_len_sub_two d (b :: c :: t) (by simp)
    have h1 : (a :: b :: c :: t).length - 2 = ((b :: c :: t).length - 2) + 1 := by
      simp
    rw [h1, List.getD_cons_succ, ih]
    simp [List.dropLast_cons₂, List.getLast?_cons_cons]

theorem splitCharAux_ne_nil (sep : Char) :
    ∀ (l acc : List Char), splitCharAux sep l acc ≠ []
  | [], _ => by simp [splitCharAux]
  | c :: cs, acc => by
    rw [splitCharAux]
    split
    · simp
    · exact splitCharAux_ne_nil sep cs _

theorem normalizeName_ne_nil (name : String) : normalizeName name ≠ [] := by
  simp only [normalizeName, splitChar]
  intro h
  exact splitCharAux_ne_nil '/' _ [] (List.map_eq_nil_iff.mp h)

theorem bestScan_keep (score : String → ℚ) (p : ℚ) (n : String) :
    ∀ l : List String, (∀ x ∈ l, score x < p) →
      l.foldl (bestStep score) (some (p, n)) = some (p, n)
  | [], _ => rfl
  | x :: xs, h => by
    have hx : ¬ score x ≥ p := not_le.mpr (h x (by simp))
    have hstep : bestStep score (some (p, n)) x = some (p, n) := by
      simp [bestStep, hx]
    rw [List.foldl_cons, hstep]
    exact bestScan_keep score p n xs (fun y hy => h y (by simp [hy]))

theorem bestScan_ub (score : String → ℚ) (c : ℚ) :
    ∀ (l : List String) (b : Option (ℚ × String)),
      (∀ q m, b = some (q, m) → q ≤ c) → (∀ x ∈ l, score x ≤ c) →
      ∀ p n, l.foldl (bestStep score) b = some (p, n) → p ≤ c
  | [], b, hb, _, p, n, hfold => hb p n hfold
  | x :: xs, b, hb, hl, p, n, hfold => by
    rw [List.foldl_cons] at hfold
    refine bestScan_ub score c xs (bestStep score b x) ?_
      (fun y hy => hl y (by simp [hy])) p n hfold
    intro q m hq
    have hxc : score x ≤ c := hl x (by simp)
    cases b with
    | none =>
      simp only [bestStep, Option.some.injEq, Prod.mk.injEq] at hq
      rcases hq with ⟨h1, h2⟩
      subst h1
      exact hxc
    | some b0 =>
      obtain ⟨q0, m0⟩ := b0
      have hq0 : q0 ≤ c := hb q0 m0 rfl
      by_cases hge : score x ≥ q0
      · simp only [bestStep, hge, if_true, Option.some.injEq, Prod.mk.injEq] at hq
        rcases hq with ⟨h1, h2⟩
        subst h1
        exact hxc
      · simp only [bestStep, hge, if_false, Option.some.injEq, Prod.mk.injEq] at hq
        rcases hq with ⟨h1, h2⟩
        subst h1
        exact hq0

theorem bestStep_replace (score : String → ℚ) (c : String)
    (b : Option (ℚ × String)) (hb : ∀ q m, b = some (q, m) → q ≤ score c) :
    bestStep score b c = some (score c, c) := by
  cases b with
  | none => rfl
  | some b0 =>
    have : score c ≥ b0.1 := hb b0.1 b0.2 (by simp)
    simp [bestStep, this]

/-! ## Claim C2 -/

/-- C2 (counterexample): for the three-segment identifier
`America/North_Dakota/Center` and the query `center`, the source's per-record
score differs from the spec's last-segment reading — the code scores the second
segment `north dakota` (score 0 under the equality matcher), while the spec's
formula scores the last segment `center` (score 1) — and the full resolver
consequently returns NotFound where the spec's reading would accept silently. -/
theorem c2_counterexample :
    score_of_record fmEq "center" "America/North_Dakota/Center" ≠
      score_of_record_spec fmEq "center" "America/North_Dakota/Center" ∧
    get_timezone knownNone ["America/North_Dakota/Center"] [] fmEq askYes
      "center" = (Except.ok none, []) := by
  constructor
  · decide
  · rfl

/-- C2 (amended): in the fuzzy catalog scan the segment-only factor of a
multi-segment record's score is computed against the **second** path segment
(`normalized[1]`), not the last; the record's overall score is the maximum of
the segment-only, forward-compound and reverse-compound scores; for identifiers
with exactly two path segments the second segment is the last, so the spec's
last-segment formula agrees there. -/
theorem c2_segment_scoring (fm : String → String → ℚ) (target name : String) :
    score_of_record fm target name = score_of_record_second fm target name ∧
    ((normalizeName name).length = 2 →
      score_of_record fm target name = score_of_record_spec fm target name) := by
  rcases h : normalizeName name with _ | ⟨a, _ | ⟨b, t⟩⟩
  · exact absurd h (normalizeName_ne_nil name)
  · constructor
    · simp [score_of_record, score_of_record_second, h]
    · intro hlen
      simp at hlen
  · have hlast := getD_len_sub_one "" (a :: b :: t) (by simp)
    have hprev := getD_len_sub_two "" (a :: b :: t) (by simp)
    constructor
    · simp only [score_of_record, score_of_record_second, h, hlast, hprev]
      simp [List.getD]
    · intro hlen
      simp only [List.length_cons] at hlen
      have ht : t = [] := by
        cases t with
        | nil => rfl
        | cons x xs => simp at hlen
      subst ht
      simp only [score_of_record, score_of_record_spec, h, hlast, hprev]
      simp [List.getD]

/-- C2 (witness): for the two-segment identifier `Australia/Sydney` the code's
score, the second-segment reading and the spec's last-segment reading all agree
on the query `sydney` under the equality matcher. -/
theorem c2_witness :
    score_of_record fmEq "sydney" "Australia/Sydney" =
      score_of_record_second fmEq "sydney" "Australia/Sydney" ∧
    (normalizeName "Australia/Sydney").length = 2 ∧
    score_of_record fmEq "sydney" "Australia/Sydney" =
      score_of_record_spec fmEq "sydney" "Australia/Sydney" :=
  ⟨(c2_segment_scoring fmEq "sydney" "Australia/Sydney").1, by decide,
   (c2_segment_scoring fmEq "sydney" "Australia/Sydney").2 (by decide)⟩

/-! ## Claim C3 -/

/-- C3: in the fuzzy scan, when an entry `c` scores at least as well as everything
before it (with some earlier entry tying its score exactly) and strictly better
than everything after it, the scan returns `c` — the entry encountered last among
the best-scoring ones — because the replacement condition is `pct >= best[0]`. -/
theorem c3_tie_last_wins (score : String → ℚ) (l₁ l₂ : List String) (c : String)
    (h₁ : ∀ x ∈ l₁, score x ≤ score c) (h₂ : ∀ x ∈ l₂, score x < score c)
    (_htie : ∃ x ∈ l₁, score x = score c) :
    bestScan score (l₁ ++ c :: l₂) = some (score c, c) := by
  have hub : ∀ q m, l₁.foldl (bestStep score) none = some (q, m) → q ≤ score c := by
    intro q m hfold
    exact bestScan_ub score (score c) l₁ none (by simp) h₁ q m hfold
  have hrep : bestStep score (l₁.foldl (bestStep score) none) c =
      some (score c, c) := by
    apply bestStep_replace
    intro q m hq
    exact hub q m hq
  rw [bestScan, List.foldl_append, List.foldl_cons, hrep]
  exact bestScan_keep score (score c) c l₂ h₂

/-- C3 (witness): with the constant scorer, `Cuba` — the later of two entries that
tie at score 1 — is the entry the scan returns. -/
theorem c3_witness :
    bestScan (fun _ => (1 : ℚ)) ["Australia/Sydney", "Cuba"] = some (1, "Cuba") :=
  c3_tie_last_wins (fun _ => (1 : ℚ)) ["Australia/Sydney"] [] "Cuba"
    (fun x _ => le_refl 1) (fun x hx => absurd hx (List.not_mem_nil x))
    ⟨"Australia/Sydney", by simp, rfl⟩

/-! ## Claim C1 -/

theorem aliasResolve_of_firstAlias (catalog : List String) (q k v r : String) :
    ∀ aliases : List (String × Val),
      firstAlias aliases q = some (k, Val.vstr v) →
      pytz_timezone catalog (pyStrip v) = some r →
      aliasResolve catalog aliases q = Except.ok (some r)
  | [], hfa, _ => by simp [firstAlias] at hfa
  | (k', v') :: rest, hfa, hpz => by
    by_cases hm : lowerStr q = lowerStr k'
    · rw [firstAlias, List.find?_cons_of_pos _ (by simp [hm])] at hfa
      simp only [Option.some.injEq, Prod.mk.injEq] at hfa
      rcases hfa with ⟨hk, hv⟩
      subst hk
      subst hv
      simp [aliasResolve, hm, hpz]
    · rw [firstAlias, List.find?_cons_of_neg _ (by simp [hm])] at hfa
      have hrec := aliasResolve_of_firstAlias catalog q k v r rest hfa hpz
      simpa [aliasResolve, hm] using hrec

/-- C1 (counterexample): the query `"UTC "` (trailing space), once trimmed,
case-insensitively equals the catalog identifier `"UTC"`, yet `get_timezone`
returns NotFound with no confirmation invoked: the code never trims the query,
so both the `pytz.timezone` lookup and the fuzzy scan miss. -/
theorem c1_counterexample :
    lowerStr (pyStrip "UTC ") = lowerStr "UTC" ∧
    get_timezone knownNone ["UTC"] [] fmEq askYes "UTC " =
      (Except.ok none, []) := by
  constructor
  · rfl
  · rfl

/-- C1 (amended): for every query that the known-place (astral) first pass does
not resolve and that case-insensitively equals — untrimmed — a catalog
identifier, `get_timezone` returns that identifier's record; failing that, if it
case-insensitively equals an alias-table key (first match) whose string value,
trimmed, names a catalog record, that record is returned; in both cases no
confirmation is invoked. -/
theorem c1_exact_lookup (known : String → Option String) (catalog : List String)
    (aliases : List (String × Val)) (fm : String → String → ℚ)
    (ask : String → String) (q : String) (hk : known q = none) :
    (∀ r, pytz_timezone catalog q = some r →
      get_timezone known catalog aliases fm ask q = (Except.ok (some r), [])) ∧
    (pytz_timezone catalog q = none →
      ∀ k v r, firstAlias aliases q = some (k, Val.vstr v) →
        pytz_timezone catalog (pyStrip v) = some r →
        get_timezone known catalog aliases fm ask q =
          (Except.ok (some r), [])) := by
  constructor
  · intro r hr
    simp [get_timezone, hk, hr]
  · intro hpz k v r hfa hpv
    have hal := aliasResolve_of_firstAlias catalog q k v r aliases hfa hpv
    simp [get_timezone, hk, hpz, hal]

/-- C1 (witness): `"australia/sydney"` hits the catalog identifier
`Australia/Sydney` case-insensitively, and `"China"` hits the alias key
`china` whose value `" UTC "`, trimmed, resolves to the catalog record `UTC`;
neither resolution asks for confirmation. -/
theorem c1_witness :
    get_timezone knownNone ["Australia/Sydney"] [] fmEq askYes
      "australia/sydney" = (Except.ok (some "Australia/Sydney"), []) ∧
    get_timezone knownNone ["UTC"] [("china", Val.vstr " UTC ")] fmEq askYes
      "China" = (Except.ok (some "UTC"), []) :=
  ⟨(c1_exact_lookup knownNone ["Australia/Sydney"] [] fmEq askYes
      "australia/sydney" rfl).1 "Australia/Sydney" (by decide),
   (c1_exact_lookup knownNone ["UTC"] [("china", Val.vstr " UTC ")] fmEq askYes
      "China" rfl).2 (by decide) "china" " UTC " "UTC" (by decide) (by decide)⟩

/-! ## Claims C4 and C5 -/

theorem get_timezone_fuzzy (known : String → Option String)
    (catalog : List String) (aliases : List (String × Val))
    (fm : String → String → ℚ) (ask : String → String) (q : String)
    (hk : known q = none) (hp : pytz_timezone catalog q = none)
    (ha : aliasResolve catalog aliases q = Except.ok none) :
    get_timezone known catalog aliases fm ask q =
      match bestScan (fun name => score_of_record fm (lowerStr q) name) catalog
        with
      | none => (Except.ok none, [])
      | some best =>
        if best.1 > highThreshold then (Except.ok (some best.2), [])
        else if best.1 > lowThreshold then
          if ask (speakable best.2) = "yes" then
            (Except.ok (some best.2), [speakable best.2])
          else (Except.ok none, [speakable best.2])
        else (Except.ok none, []) := by
  simp only [get_timezone, hk, hp, ha]

/-- C4: once the exact and alias strategies have fallen through, the decision on
the best fuzzy candidate follows the thresholds — an empty catalog yields
NotFound with no confirmation; a best score strictly above `0.8` returns the
record with no confirmation; a best score at most `0.3` yields NotFound with no
confirmation. -/
theorem c4_threshold_decision (known : String → Option String)
    (catalog : List String) (aliases : List (String × Val))
    (fm : String → String → ℚ) (ask : String → String) (q : String)
    (hk : known q = none) (hp : pytz_timezone catalog q = none)
    (ha : aliasResolve catalog aliases q = Except.ok none) :
    (catalog = [] →
      get_timezone known catalog aliases fm ask q = (Except.ok none, [])) ∧
    (∀ p n,
      bestScan (fun name => score_of_record fm (lowerStr q) name) catalog =
        some (p, n) →
      (p > 8/10 →
        get_timezone known catalog aliases fm ask q =
          (Except.ok (some n), [])) ∧
      (p ≤ 3/10 →
        get_timezone known catalog aliases fm ask q = (Except.ok none, []))) := by
  rw [get_timezone_fuzzy known catalog aliases fm ask q hk hp ha]
  constructor
  · intro hc
    subst hc
    rfl
  · intro p n hb
    rw [hb]
    dsimp only
    constructor
    · intro hhigh
      rw [if_pos (by rw [highThreshold_eq]; exact hhigh)]
    · intro hlow
      rw [if_neg (by rw [highThreshold_eq]; push_neg; linarith),
        if_neg (by rw [lowThreshold_eq]; push_neg; exact hlow)]

/-- C4 (witness): with the equality matcher over the catalog
`[Australia/Sydney, Cuba]`, an empty catalog yields NotFound; `"sydney"` scores
1 on `Australia/Sydney` and is accepted silently; `"atlantis"` scores 0
everywhere and yields NotFound — never invoking confirmation. -/
theorem c4_witness :
    get_timezone knownNone [] [] fmEq askYes "sydney" = (Except.ok none, []) ∧
    get_timezone knownNone ["Australia/Sydney", "Cuba"] [] fmEq askYes "sydney" =
      (Except.ok (some "Australia/Sydney"), []) ∧
    get_timezone knownNone ["Australia/Sydney", "Cuba"] [] fmEq askYes
      "atlantis" = (Except.ok none, []) :=
  ⟨(c4_threshold_decision knownNone [] [] fmEq askYes "sydney" rfl rfl rfl).1
      rfl,
   ((c4_threshold_decision knownNone ["Australia/Sydney", "Cuba"] [] fmEq askYes
      "sydney" rfl (by decide) rfl).2 1 "Australia/Sydney" (by decide)).1
      (by norm_num),
   ((c4_threshold_decision knownNone ["Australia/Sydney", "Cuba"] [] fmEq askYes
      "atlantis" rfl (by decide) rfl).2 0 "Cuba" (by decide)).2 (by norm_num)⟩

/-- C5: once the exact and alias strategies have fallen through, a best fuzzy
score in `(0.3, 0.8]` makes `get_timezone` invoke the confirmation collaborator
exactly once, with the candidate's speakable phrase — its path segments
(underscores to spaces, camel-case boundaries split) reversed and joined with
spaces — and return the candidate exactly when the reply is `"yes"`, else
NotFound. -/
theorem c5_confirmation_band (known : String → Option String)
    (catalog : List String) (aliases : List (String × Val))
    (fm : String → String → ℚ) (ask : String → String) (q : String) (p : ℚ)
    (n : String) (hk : known q = none) (hp : pytz_timezone catalog q = none)
    (ha : aliasResolve catalog aliases q = Except.ok none)
    (hb : bestScan (fun name => score_of_record fm (lowerStr q) name) catalog =
      some (p, n))
    (hlow : 3/10 < p) (hhigh : p ≤ 8/10) :
    get_timezone known catalog aliases fm ask q =
      ((if ask (speakable n) = "yes" then Except.ok (some n)
        else Except.ok none), [speakable n]) := by
  rw [get_timezone_fuzzy known catalog aliases fm ask q hk hp ha, hb]
  dsimp only
  rw [if_neg (by rw [highThreshold_eq]; push_neg; exact hhigh),
    if_pos (by rw [lowThreshold_eq]; exact hlow)]
  split <;> rfl

/-- C5 (witness): the spec's concrete scenario — catalog
`[America/North_Dakota/Center]`, query `"north dakota"`, a constant moderate
score `1/2`, an affirmative responder: confirmation is requested exactly once
with the phrase `"Center North Dakota America"` and the record is resolved. -/
theorem c5_witness :
    get_timezone knownNone ["America/North_Dakota/Center"] [] fmHalf askYes
      "north dakota" =
      (Except.ok (some "America/North_Dakota/Center"),
       ["Center North Dakota America"]) := by
  have h := c5_confirmation_band knownNone ["America/North_Dakota/Center"] []
    fmHalf askYes "north dakota" half "America/North_Dakota/Center" rfl
    (by decide) rfl (by decide) (by rw [half_eq]; norm_num)
    (by rw [half_eq]; norm_num)
  rw [h]
  rfl

/-! ## Claim C6 -/

/-- C6 (counterexample): an alias table with the single malformed entry
`("paris", non-string)` makes resolution of the query `"Paris"` raise (the
`.strip()` call on the non-string value is outside every `try`), refuting the
claim that malformed alias entries never crash resolution. -/
theorem c6_counterexample :
    get_timezone knownNone ["UTC"] [("paris", Val.vother)] fmEq askYes "Paris" =
      (Except.error (), []) := by
  rfl

/-- C6 (amended): a malformed (non-string) alias entry whose key does not
case-insensitively equal the query is skipped and the remaining strategies
continue exactly as without it; but when its key matches the query, the
`.strip()` on the non-string value raises out of `get_timezone` (the code
assumes the translation table is well formed). -/
theorem c6_malformed_alias (known : String → Option String)
    (catalog : List String) (aliases : List (String × Val))
    (fm : String → String → ℚ) (ask : String → String) (q k : String) :
    (lowerStr q ≠ lowerStr k →
      get_timezone known catalog ((k, Val.vother) :: aliases) fm ask q =
        get_timezone known catalog aliases fm ask q) ∧
    (lowerStr q = lowerStr k → known q = none →
      pytz_timezone catalog q = none →
      get_timezone known catalog ((k, Val.vother) :: aliases) fm ask q =
        (Except.error (), [])) := by
  constructor
  · intro hne
    have hal : aliasResolve catalog ((k, Val.vother) :: aliases) q =
        aliasResolve catalog aliases q := by
      simp [aliasResolve, hne]
    simp only [get_timezone, hal]
  · intro heq hk hp
    have hal : aliasResolve catalog ((k, Val.vother) :: aliases) q =
        Except.error () := by
      simp [aliasResolve, heq]
    simp [get_timezone, hk, hp, hal]

/-- C6 (witness): the malformed entry `("china", non-string)` is skipped for the
query `"UTC"` (which then resolves through the catalog), and raises for the
query `"China"` that matches its key. -/
theorem c6_witness :
    get_timezone knownNone ["UTC"] [("china", Val.vother)] fmEq askYes "UTC" =
      get_timezone knownNone ["UTC"] [] fmEq askYes "UTC" ∧
    get_timezone knownNone ["UTC"] [("china", Val.vother)] fmEq askYes "China" =
      (Except.error (), []) :=
  ⟨(c6_malformed_alias knownNone ["UTC"] [] fmEq askYes "UTC" "china").1
      (by decide),
   (c6_malformed_alias knownNone ["UTC"] [] fmEq askYes "China" "china").2
      (by decide) rfl (by decide)⟩

/-! ## Claim C7 -/

theorem update_display_held (env : Env) (force : Bool) (st : SkillState)
    (h : st.answering_query = true) : update_display env force st = (st, []) := by
  simp [update_display, h]

theorem runTicks_held (st : SkillState) (h : st.answering_query = true) :
    ∀ l : List (Env × Bool), runTicks st l = (st, [])
  | [] => rfl
  | (env, force) :: rest => by
    rw [runTicks, update_display_held env force st h,
      runTicks_held st h rest]
    rfl

/-- C7: while `answering_query` is held, any number of periodic ticks issues no
action at all — in particular no draw and no erase — and leaves the whole
skill state unchanged; `endExclusive` clears the flag, and on the next tick
with the idle display enabled, the display free and a fresh nonempty time
text, a draw is issued again. -/
theorem c7_exclusive_hold (st : SkillState) (h : st.answering_query = true) :
    (∀ l : List (Env × Bool), runTicks st l = (st, [])) ∧
    (endExclusive st).1.answering_query = false ∧
    (∀ env t, env.show_time = true → env.active_owner = "" →
      env.current_time = some t → t ≠ "" →
      (update_display env false (endExclusive st).1).2 =
        [Action.draw t, Action.removeActive]) := by
  refine ⟨runTicks_held st h, rfl, ?_⟩
  intro env t hs ho hc ht
  simp [update_display, endExclusive, display_fn, hs, ho, hc, ht]

/-- C7 (witness): from a held state, two concrete ticks (one of them forced)
produce no actions and leave the state unchanged; after `endExclusive`, a tick
in a free environment draws. -/
theorem c7_witness :
    runTicks stHold [(envFree, false), (envBusy, true)] = (stHold, []) ∧
    (update_display envFree false (endExclusive stHold).1).2 =
      [Action.draw "12:00", Action.removeActive] :=
  ⟨(c7_exclusive_hold stHold rfl).1 [(envFree, false), (envBusy, true)],
   (c7_exclusive_hold stHold rfl).2.2 envFree "12:00" rfl rfl rfl (by decide)⟩

/-! ## Claim C8 -/

/-- C8: over two consecutive unforced ticks with the idle display enabled, the
display free and the same nonempty computed time text, the second tick never
draws, the pair draws at most once, and it draws exactly once in the claim's
scenario — when the text was not already the last shown one — because each draw
is guarded by the comparison with `displayed_time`. -/
theorem c8_idempotent_ticks (st : SkillState) (env : Env) (t : String)
    (ha : st.answering_query = false) (hs : env.show_time = true)
    (ho : env.active_owner = "") (hc : env.current_time = some t)
    (ht : t ≠ "") :
    ((update_display env false
        ((update_display env false st).1)).2.countP isDraw = 0) ∧
    (((update_display env false st).2 ++
        (update_display env false ((update_display env false st).1)).2).countP
        isDraw ≤ 1) ∧
    (st.displayed_time ≠ some t →
      ((update_display env false st).2 ++
        (update_display env false ((update_display env false st).1)).2).countP
        isDraw = 1) := by
  by_cases hd : st.displayed_time = some t
  · have h1 : update_display env false st =
        ({ st with gui_time := env.current_time,
                   gui_date := some env.current_date, gui_ampm := some "" },
         []) := by
      simp [update_display, ha, hs, ho, hc, hd]
    rw [h1]
    have h2 : update_display env false
        ({ st with gui_time := env.current_time,
                   gui_date := some env.current_date, gui_ampm := some "" },
         ([] : List Action)).1 =
        ({ st with gui_time := env.current_time,
                   gui_date := some env.current_date, gui_ampm := some "" },
         []) := by
      simp [update_display, ha, hs, ho, hc, hd]
    rw [h2]
    refine ⟨rfl, by simp, fun hne => absurd hd hne⟩
  · have h1 : update_display env false st =
        ({ st with displayed_time := some t, gui_time := some t,
                   gui_date := some env.current_date, gui_ampm := some "" },
         [Action.draw t, Action.removeActive]) := by
      simp [update_display, display_fn, ha, hs, ho, hc, hd, ht]
    rw [h1]
    have h2 : update_display env false
        ({ st with displayed_time := some t, gui_time := some t,
                   gui_date := some env.current_date, gui_ampm := some "" },
         [Action.draw t, Action.removeActive]).1 =
        ({ st with displayed_time := some t, gui_time := some t,
                   gui_date := some env.current_date, gui_ampm := some "" },
         []) := by
      simp [update_display, ha, hs, ho, hc]
    rw [h2]
    refine ⟨rfl, by simp [isDraw], fun _ => by simp [isDraw]⟩

/-- C8 (witness): from a fresh state (nothing shown yet), two ticks in the same
free environment draw exactly once and the second tick draws nothing. -/
theorem c8_witness :
    ((update_display envFree false
        ((update_display envFree false stFresh).1)).2.countP isDraw = 0) ∧
    (((update_display envFree false stFresh).2 ++
        (update_display envFree false
          ((update_display envFree false stFresh).1)).2).countP isDraw = 1) :=
  ⟨(c8_idempotent_ticks stFresh envFree "12:00" rfl rfl rfl rfl
      (by decide)).1,
   (c8_idempotent_ticks stFresh envFree "12:00" rfl rfl rfl rfl
      (by decide)).2.2 (by decide)⟩

/-! ## Claim C9 -/

/-- C9: an unforced tick taken while the idle display is enabled and the
ownership registry reports a non-empty (foreign) owner issues no action — in
particular no draw — and clears `displayed_time` to `None`. -/
theorem c9_conflict_defers (st : SkillState) (env : Env)
    (ha : st.answering_query = false) (hs : env.show_time = true)
    (ho : env.active_owner ≠ "") :
    (update_display env false st).2 = [] ∧
    (update_display env false st).1.displayed_time = none := by
  simp [update_display, ha, hs, ho]

/-- C9 (witness): with `OtherSkill` owning the display, a tick from a state that
was showing `11:59` issues nothing and clears the cached text. -/
theorem c9_witness :
    (update_display envBusy false
      { answering_query := false, displayed_time := some "11:59",
        gui_time := none, gui_date := none, gui_ampm := none }).2 = [] ∧
    (update_display envBusy false
      { answering_query := false, displayed_time := some "11:59",
        gui_time := none, gui_date := none, gui_ampm := none
        }).1.displayed_time = none :=
  c9_conflict_defers
    { answering_query := false, displayed_time := some "11:59",
      gui_time := none, gui_date := none, gui_ampm := none }
    envBusy rfl rfl (by decide)

/-! ## Claim C10 -/

/-- C10: every tick with `answering_query` false writes the current time value,
the current date string and an empty am/pm string into the GUI state — whatever
the idle-display setting, ownership reading and force flag, and whether or not
anything is drawn — while a tick with `answering_query` true leaves the whole
state untouched and issues nothing. -/
theorem c10_gui_frame (st : SkillState) (env : Env) (force : Bool) :
    (st.answering_query = false →
      ((update_display env force st).1.gui_time = env.current_time ∧
       (update_display env force st).1.gui_date = some env.current_date ∧
       (update_display env force st).1.gui_ampm = some "")) ∧
    (st.answering_query = true → update_display env force st = (st, [])) := by
  constructor
  · intro ha
    simp only [update_display, ha, Bool.false_eq_true, if_false]
    split
    · split
      · split
        · simp only [display_fn]
          split
          · simp
          · split <;> simp_all
        · simp
      · simp
    · split
      · split <;> simp
      · simp
  · intro ha
    simp [update_display, ha]

/-- C10 (witness): in a free environment an unforced tick from a fresh state
writes time, date and empty am/pm into the GUI; from a held state the tick is a
complete no-op. -/
theorem c10_witness :
    ((update_display envFree false stFresh).1.gui_time =
        envFree.current_time ∧
      (update_display envFree false stFresh).1.gui_date =
        some envFree.current_date ∧
      (update_display envFree false stFresh).1.gui_ampm = some "") ∧
    update_display envFree false stHold = (stHold, []) :=
  ⟨(c10_gui_frame stFresh envFree false).1 rfl,
   (c10_gui_frame stHold envFree false).2 rfl⟩

end TimeSkillVerif
